import Mathlib

/-!
Shallow embedding of the question-session core of the AIC 2025 mock scoring
server (`app/core/session.py` and `app/services/fake_teams.py`), together
with proofs of the specified properties.

Modelling conventions:
* `time.time()` becomes an explicit integer parameter `now : Int`; elapsed
  times are integer differences.
* Scores are `Int` (only their ordering matters to the stated properties).
* Python dicts become association lists preserving insertion order:
  `dictGet` is `d.get(k)` / `d[k]`, `dictSet` is `d[k] = v` (update in
  place, append when the key is new).
* `record_submission` on a missing question id raises `KeyError` in Python;
  the embedding returns `none` (and the state is unchanged, as the Python
  lookup fails before any mutation).
* The process-global mutable module state (`active_questions`,
  `current_active_question_id`) becomes an explicit `ServerState` value
  threaded through the operations.
* Randomness (attempt draws, scores, delays) is passed in as explicit data.
-/

namespace VBS

/-- Dict lookup (`d.get(k)`): the first binding of the key, if any. -/
def dictGet {κ β : Type} [DecidableEq κ] : List (κ × β) → κ → Option β
  | [], _ => none
  | (k', v) :: rest, k => if k' = k then some v else dictGet rest k

/-- Dict update (`d[k] = v`): replace in place, preserving insertion order;
append at the end when the key is new. -/
def dictSet {κ β : Type} [DecidableEq κ] : List (κ × β) → κ → β → List (κ × β)
  | [], k, v => [(k, v)]
  | (k', v') :: rest, k, v =>
      if k' = k then (k, v) :: rest else (k', v') :: dictSet rest k v

/-- Python truthiness of an optional string (`None` and `""` are falsy). -/
def strTruthy : Option String → Bool
  | none => false
  | some s => !(s == "")

/-- Python `a or b` for an optional string `a` and a string `b`. -/
def pyOr (a : Option String) (b : String) : String :=
  match a with
  | none => b
  | some s => if s == "" then b else s

/-- Python truthiness of an `Optional[int]` (`None` and `0` are falsy). -/
def optNatTruthy : Option Nat → Bool
  | none => false
  | some n => n != 0

/-- One team's record for one question (`app.models.TeamSubmission`).
Modelled from the spec: `app/models.py` itself is not among the sources;
the field names and types are read off the constructor calls in
`session.py`, and the defaults of fields omitted there (`submit_times=[]`,
`team_session_id=None`, `is_completed=False`, `final_score=None`,
`first_correct_time=None`) follow the spec's data model (`is_completed`
becomes true on the first correct answer; `final_score` and
`first_correct_time` start unset). Per the spec's design notes, the record's
shape is fixed and fully initialized, so the `hasattr` retrofit of
`submit_times` in `record_submission` is a no-op here. -/
structure TeamSubmission where
  team_id : String
  team_name : String
  team_session_id : Option String := none
  question_id : Nat
  submit_times : List Int := []
  wrong_count : Nat := 0
  correct_count : Nat := 0
  is_completed : Bool := false
  final_score : Option Int := none
  first_correct_time : Option Int := none
  deriving Repr, DecidableEq

/-- One question round (`app.models.QuestionSession`); fields read off the
constructor call in `start_question`. -/
structure QuestionSession where
  question_id : Nat
  start_time : Int
  time_limit : Int
  buffer_time : Int
  is_active : Bool
  team_submissions : List (String × TeamSubmission)
  fake_teams : List (String × TeamSubmission)
  deriving Repr, DecidableEq

/-- The process-wide module state of `app/core/session.py`:
`active_questions` and the cached `current_active_question_id`. -/
structure ServerState where
  active_questions : List (Nat × QuestionSession)
  current_active_question_id : Option Nat
  deriving Repr, DecidableEq

/-- `get_question_session` (`session.py` 231-233). -/
def get_question_session (s : ServerState) (question_id : Nat) :
    Option QuestionSession :=
  dictGet s.active_questions question_id

/-- `is_question_active` (`session.py` 236-250). -/
def is_question_active (s : ServerState) (now : Int) (question_id : Nat) :
    Bool :=
  match dictGet s.active_questions question_id with
  | none => false
  | some session =>
      session.is_active &&
        decide (now - session.start_time ≤
          session.time_limit + session.buffer_time)

/-- `get_elapsed_time` (`session.py` 253-258). -/
def get_elapsed_time (s : ServerState) (now : Int) (question_id : Nat) :
    Int :=
  match dictGet s.active_questions question_id with
  | none => 0
  | some session => now - session.start_time

/-- `get_remaining_time` (`session.py` 261-269). -/
def get_remaining_time (s : ServerState) (now : Int) (question_id : Nat) :
    Int :=
  match dictGet s.active_questions question_id with
  | none => 0
  | some session => max 0 (session.time_limit - (now - session.start_time))

/-- `get_team_submission` (`session.py` 272-277). -/
def get_team_submission (s : ServerState) (question_id : Nat)
    (team_id : String) : Option TeamSubmission :=
  match dictGet s.active_questions question_id with
  | none => none
  | some session => dictGet session.team_submissions team_id

/-- The per-record mutation performed by `record_submission`
(`session.py` 330-341): append the timestamp, bump exactly one counter and,
on the first correct answer only, set the completion fields. -/
def applySubmission (now : Int) (is_correct : Bool) (score : Option Int)
    (team_sub : TeamSubmission) : TeamSubmission :=
  let team_sub :=
    { team_sub with submit_times := team_sub.submit_times ++ [now] }
  if !is_correct then
    { team_sub with wrong_count := team_sub.wrong_count + 1 }
  else
    let team_sub :=
      { team_sub with correct_count := team_sub.correct_count + 1 }
    if !team_sub.is_completed then
      { team_sub with
          is_completed := true
          first_correct_time := some now
          final_score := score }
    else
      team_sub

/-- The upsert of a real team's record in `record_submission`
(`session.py` 313-328): create a fresh record on first sight, otherwise
backfill `team_name`/`team_session_id` when they were empty and the call
supplies a truthy value, never overwriting non-empty values. -/
def upsertRealRecord (session : QuestionSession) (question_id : Nat)
    (team_id : String) (team_name team_session_id : Option String) :
    TeamSubmission :=
  match dictGet session.team_submissions team_id with
  | none =>
      { team_id := team_id
        team_name := pyOr team_name team_id
        team_session_id := team_session_id
        question_id := question_id
        submit_times := []
        wrong_count := 0
        correct_count := 0 }
  | some existing =>
      let existing :=
        if strTruthy team_name && (existing.team_name == "") then
          { existing with team_name := team_name.getD "" }
        else existing
      if strTruthy team_session_id && !(strTruthy existing.team_session_id)
      then { existing with team_session_id := team_session_id }
      else existing

/-- `record_submission` (`session.py` 280-341). Returns `none` when the
question id is untracked (Python raises `KeyError` there, before any
mutation). Synthetic teams (members of `fake_teams`) are updated in place
in that mapping; real teams are upserted into `team_submissions`. -/
def record_submission (s : ServerState) (now : Int) (question_id : Nat)
    (team_id : String) (is_correct : Bool) (score : Option Int := none)
    (team_name : Option String := none)
    (team_session_id : Option String := none) :
    Option (ServerState × TeamSubmission) :=
  match dictGet s.active_questions question_id with
  | none => none
  | some session =>
      match dictGet session.fake_teams team_id with
      | some fake_sub =>
          let team_sub := applySubmission now is_correct score fake_sub
          let session' :=
            { session with
                fake_teams := dictSet session.fake_teams team_id team_sub }
          some ({ s with
                    active_questions :=
                      dictSet s.active_questions question_id session' },
                team_sub)
      | none =>
          let base :=
            upsertRealRecord session question_id team_id team_name
              team_session_id
          let team_sub := applySubmission now is_correct score base
          let session' :=
            { session with
                team_submissions :=
                  dictSet session.team_submissions team_id team_sub }
          some ({ s with
                    active_questions :=
                      dictSet s.active_questions question_id session' },
                team_sub)

/-- The candidate list built by `_refresh_active_question_id`
(`session.py` 32-36): `(start_time, qid)` for every currently active
session. -/
def scanActiveCandidates (s : ServerState) (now : Int) : List (Int × Nat) :=
  s.active_questions.filterMap fun p =>
    if is_question_active s now p.1 then some (p.2.start_time, p.1)
    else none

/-- Python `max` over a list of `(start_time, qid)` pairs: lexicographic,
keeping the earlier element on full ties. -/
def pyMax : List (Int × Nat) → Option (Int × Nat)
  | [] => none
  | x :: rest =>
      some (rest.foldl
        (fun m y =>
          if m.1 < y.1 ∨ (m.1 = y.1 ∧ m.2 < y.2) then y else m) x)

/-- `_refresh_active_question_id` (`session.py` 23-43). Note the Python
truthiness test `if current_active_question_id and ...`: a cached id of `0`
is falsy and always triggers a rescan. -/
def refresh_active_question_id (s : ServerState) (now : Int) :
    ServerState × Option Nat :=
  if optNatTruthy s.current_active_question_id &&
      is_question_active s now (s.current_active_question_id.getD 0) then
    (s, s.current_active_question_id)
  else
    match pyMax (scanActiveCandidates s now) with
    | some m =>
        ({ s with current_active_question_id := some m.2 }, some m.2)
    | none => ({ s with current_active_question_id := none }, none)

/-- `get_current_active_question_id` (`session.py` 46-48). -/
def get_current_active_question_id (s : ServerState) (now : Int) :
    ServerState × Option Nat :=
  refresh_active_question_id s now

/-- `stop_question` (`session.py` 344-352). -/
def stop_question (s : ServerState) (now : Int) (question_id : Nat) :
    ServerState :=
  match dictGet s.active_questions question_id with
  | none => s
  | some session =>
      let session' := { session with is_active := false }
      let s' :=
        { s with
            active_questions :=
              dictSet s.active_questions question_id session' }
      if s'.current_active_question_id = some question_id then
        (refresh_active_question_id s' now).1
      else s'

/-- `reset_all_questions` (`session.py` 407-414): returns the cleared
state and the number of sessions that were tracked. -/
def reset_all_questions (s : ServerState) : ServerState × Nat :=
  (⟨[], none⟩, s.active_questions.length)

/-- `add_team_to_active_sessions` (`session.py` 417-429). -/
def add_team_to_active_sessions (s : ServerState) (team_id team_name
    team_session_id : String) : ServerState :=
  { s with
      active_questions := s.active_questions.map fun p =>
        (p.1,
         if (dictGet p.2.team_submissions team_id).isSome then p.2
         else
           { p.2 with
               team_submissions :=
                 dictSet p.2.team_submissions team_id
                   { team_id := team_id
                     team_name := team_name
                     team_session_id := some team_session_id
                     question_id := p.1
                     submit_times := []
                     wrong_count := 0
                     correct_count := 0 } }) }

/-- One row of `get_question_leaderboard` (`session.py` 370-376, 383).
`rank` is attached after sorting; rows are built with `rank := 0`. -/
structure LeaderboardEntry where
  team_id : String
  score : Int
  time_taken : Int
  submit_count : Nat
  wrong_count : Nat
  rank : Nat := 0
  deriving Repr, DecidableEq

/-- The sort order of `results.sort(key=lambda x: (-x["score"],
x["time_taken"]))`: score descending, then time taken ascending. -/
def entryLE (a b : LeaderboardEntry) : Prop :=
  b.score < a.score ∨ (a.score = b.score ∧ a.time_taken ≤ b.time_taken)

instance : DecidableRel entryLE := fun a b => by
  unfold entryLE; infer_instance

/-- The unranked rows of `get_question_leaderboard` (`session.py` 366-376):
completed real-ledger teams with a set `final_score`. On every record the
code produces, `is_completed` implies `first_correct_time` is set, so the
`getD 0` default is never reached there. -/
def leaderboardEntries (session : QuestionSession) : List LeaderboardEntry :=
  session.team_submissions.filterMap fun p =>
    if p.2.is_completed && p.2.final_score.isSome then
      some { team_id := p.1
             score := p.2.final_score.getD 0
             time_taken := p.2.first_correct_time.getD 0 - session.start_time
             submit_count := p.2.submit_times.length
             wrong_count := p.2.wrong_count }
    else none

instance entryLETotal : IsTotal LeaderboardEntry entryLE :=
  ⟨fun a b => by
    unfold entryLE
    rcases lt_trichotomy a.score b.score with h | h | h
    · exact Or.inr (Or.inl h)
    · rcases Int.le_total a.time_taken b.time_taken with ht | ht
      · exact Or.inl (Or.inr ⟨h, ht⟩)
      · exact Or.inr (Or.inr ⟨h.symm, ht⟩)
    · exact Or.inl (Or.inl h)⟩

instance entryLETrans : IsTrans LeaderboardEntry entryLE :=
  ⟨fun a b c hab hbc => by
    unfold entryLE at hab hbc ⊢
    rcases hab with h | ⟨h1, h2⟩ <;> rcases hbc with g | ⟨g1, g2⟩
    · exact Or.inl (by omega)
    · exact Or.inl (by omega)
    · exact Or.inl (by omega)
    · exact Or.inr ⟨by omega, by omega⟩⟩

/-- The rank-assignment loop (`session.py` 382-383:
`for idx, result in enumerate(results): result["rank"] = idx + 1`),
started at 1. -/
def assignRanks : Nat → List LeaderboardEntry → List LeaderboardEntry
  | _, [] => []
  | i, e :: rest => { e with rank := i } :: assignRanks (i + 1) rest

/-- Forget an entry's rank (for relating ranked output to unranked rows,
which are built with `rank := 0`). -/
def eraseRank (e : LeaderboardEntry) : LeaderboardEntry :=
  { e with rank := 0 }

/-- `get_question_leaderboard` (`session.py` 355-385). Python's `sort` is a
stable sort by the key `(-score, time_taken)`; `List.insertionSort` with
`entryLE` is the same stable sort. Ranks are positions, 1-based. -/
def get_question_leaderboard (s : ServerState) (question_id : Nat) :
    List LeaderboardEntry :=
  match dictGet s.active_questions question_id with
  | none => []
  | some session =>
      assignRanks 1
        (List.insertionSort entryLE (leaderboardEntries session))

/-- One row of `get_all_sessions_status` (`session.py` 393-403). -/
structure SessionStatus where
  question_id : Nat
  is_active : Bool
  elapsed_time : Int
  remaining_time : Int
  time_limit : Int
  buffer_time : Int
  total_teams : Nat
  total_submissions : Nat
  completed_teams : Nat
  deriving Repr, DecidableEq

/-- `get_all_sessions_status` (`session.py` 388-404). -/
def get_all_sessions_status (s : ServerState) (now : Int) :
    List SessionStatus :=
  s.active_questions.map fun p =>
    { question_id := p.1
      is_active := is_question_active s now p.1
      elapsed_time := get_elapsed_time s now p.1
      remaining_time := get_remaining_time s now p.1
      time_limit := p.2.time_limit
      buffer_time := p.2.buffer_time
      total_teams := p.2.team_submissions.length
      total_submissions :=
        (p.2.team_submissions.map fun q => q.2.submit_times.length).sum
      completed_teams :=
        (p.2.team_submissions.filter fun q => q.2.is_completed).length }

/-- `TEAM_NAMES` pool (`app/services/fake_teams.py` 8-19). -/
def TEAM_NAMES : List String :=
  ["0THING2LOSE", "UIT@Dzeus", "TKU.TonNGoYsss", "UTE AI LAB",
   "UIT-SHAMROCK", "TKU@MBZUAI", "TKU@UNIVORN&WHEAT", "Althena",
   "Your answer", "float97", "KPT", "GALAXY-AI", "Lucifer",
   "FLameReavers", "OpenCubee_1", "OpenCubee2", "Nomial",
   "AIO - Neural Weavers", "5bros", "AeThanhHoa", "AIO_Trinh",
   "Google DeepMind", "OpenAI", "Anthropic", "Meta AI",
   "Microsoft Research", "NVIDIA Research", "xAI", "Mistral AI", "Cohere",
   "Stability AI", "Hugging Face", "Tesla AI", "Amazon AGI", "Apple MLR",
   "Baidu AI"]

/-- `generate_fake_team_names` (`fake_teams.py` 22-38) at its only call
site, the default `count=36`: since `count >= len(TEAM_NAMES)` the whole
pool is returned (the `random.sample` branch is unused in the repository). -/
def generate_fake_team_names : List String := TEAM_NAMES

/-- `initialize_fake_teams` (`session.py` 51-80). -/
def initialize_fake_teams (question_id : Nat) :
    List (String × TeamSubmission) :=
  generate_fake_team_names.map fun name =>
    (name,
     { team_id := name
       team_name := name
       question_id := question_id
       wrong_count := 0
       correct_count := 0
       is_completed := false
       final_score := none
       first_correct_time := none })

/-- One entry of the external `state.TEAM_REGISTRY` mapping
(session id → team info), passed to `start_question` explicitly. -/
structure RegistryInfo where
  team_id : String
  team_name : String
  deriving Repr, DecidableEq

/-- The registered-real-teams snapshot taken by `start_question`
(`session.py` 212-223). -/
def registrySnapshot (registry : List (String × RegistryInfo))
    (question_id : Nat) : List (String × TeamSubmission) :=
  registry.foldl
    (fun acc p =>
      if (dictGet acc p.2.team_id).isSome then acc
      else
        dictSet acc p.2.team_id
          { team_id := p.2.team_id
            team_name := p.2.team_name
            team_session_id := some p.1
            question_id := question_id
            submit_times := []
            wrong_count := 0
            correct_count := 0 })
    []

/-- `start_question` (`session.py` 184-228), with the process-global
`state.TEAM_REGISTRY` passed explicitly. The background fake-team
submission tasks it spawns are modelled separately
(`start_fake_team_submissions_plan`). -/
def start_question (s : ServerState) (now : Int)
    (registry : List (String × RegistryInfo)) (question_id : Nat)
    (time_limit : Int := 300) (buffer_time : Int := 10) :
    ServerState × QuestionSession :=
  let session : QuestionSession :=
    { question_id := question_id
      start_time := now
      time_limit := time_limit
      buffer_time := buffer_time
      is_active := true
      team_submissions := registrySnapshot registry question_id
      fake_teams := initialize_fake_teams question_id }
  ({ active_questions := dictSet s.active_questions question_id session
     current_active_question_id := some question_id },
   session)

/-- The per-team scheduling decision of `start_fake_team_submissions`
(`session.py` 146-163): given the random draw `(wrong_count,
correct_count)`, decide whether a background submission task is created for
the team and with which counts. The sentinel team `"0THING2LOSE"` gets a
forced correct submission on a `(0, 0)` draw; any other team with a
`(0, 0)` draw schedules nothing. Scores and delays are drawn afterwards
and do not affect this decision. -/
def scheduleFakeTeamDecision (team_name : String) (draw : Nat × Nat) :
    Option (Nat × Nat) :=
  let is_special := team_name == "0THING2LOSE"
  let wrong_count := draw.1
  let correct_count := draw.2
  if wrong_count == 0 && correct_count == 0 then
    if is_special then some (wrong_count, 1) else none
  else some (wrong_count, correct_count)

/-- The set of background tasks created by `start_fake_team_submissions`
(`session.py` 131-181) for one session, given the attempt draws: one entry
`(team_name, wrong_count, correct_count)` per scheduled task. -/
def start_fake_team_submissions_plan (session : QuestionSession)
    (draws : String → Nat × Nat) : List (String × Nat × Nat) :=
  session.fake_teams.filterMap fun p =>
    (scheduleFakeTeamDecision p.1 (draws p.1)).map fun wc => (p.1, wc)

/-- The operations other than `start_question` and `reset_all_questions`:
submissions, the cache-refreshing active-question query, the admin stop,
and real-team registration. Read-only queries do not change the state and
need no constructor. -/
inductive Op where
  | record (now : Int) (question_id : Nat) (team_id : String)
      (is_correct : Bool) (score : Option Int)
      (team_name team_session_id : Option String)
  | stop (now : Int) (question_id : Nat)
  | queryActive (now : Int)
  | register (team_id team_name team_session_id : String)

/-- State transition of one operation. A `record` against an untracked
question id raises in Python before any mutation, leaving the state
unchanged. -/
def applyOp (s : ServerState) : Op → ServerState
  | .record now qid team c sc tn tsid =>
      match record_submission s now qid team c sc tn tsid with
      | some r => r.1
      | none => s
  | .stop now qid => stop_question s now qid
  | .queryActive now => (get_current_active_question_id s now).1
  | .register tid tn tsid => add_team_to_active_sessions s tid tn tsid

/-- Run a sequence of operations. -/
def applyOps (s : ServerState) (ops : List Op) : ServerState :=
  ops.foldl applyOp s

/-- The record `record_submission` addresses for `(question_id, team_id)`:
the synthetic-ledger entry when the team is a fake team, otherwise the
real-ledger entry. -/
def lookupRecord (s : ServerState) (question_id : Nat) (team_id : String) :
    Option TeamSubmission :=
  match dictGet s.active_questions question_id with
  | none => none
  | some session =>
      match dictGet session.fake_teams team_id with
      | some ts => some ts
      | none => dictGet session.team_submissions team_id

/-- The base record `record_submission` starts from before mutating:
the fake-team record as stored, or the upserted real-team record. -/
def addressedBase (session : QuestionSession) (question_id : Nat)
    (team_id : String) (team_name team_session_id : Option String) :
    TeamSubmission :=
  match dictGet session.fake_teams team_id with
  | some fake_sub => fake_sub
  | none =>
      upsertRealRecord session question_id team_id team_name team_session_id

/-- The completion-relevant fields of a possibly-absent record:
`(is_completed, final_score, first_correct_time, correct_count)`. An absent
real-team record behaves like the fresh record `record_submission` creates
(`false`, `none`, `none`, `0`). -/
def completionView :
    Option TeamSubmission → Bool × Option Int × Option Int × Nat
  | none => (false, none, none, 0)
  | some ts =>
      (ts.is_completed, ts.final_score, ts.first_correct_time,
       ts.correct_count)

/-- How one `record_submission` call transforms the completion view:
a wrong answer changes nothing here; a correct answer bumps
`correct_count` and, the first time only, sets the completion fields. -/
def stepView (now : Int) (is_correct : Bool) (score : Option Int) :
    Bool × Option Int × Option Int × Nat →
      Bool × Option Int × Option Int × Nat
  | (completed, fs, fct, cc) =>
      if is_correct then
        if completed then (true, fs, fct, cc + 1)
        else (true, score, some now, cc + 1)
      else (completed, fs, fct, cc)

/-- One call of a submission sequence for a fixed `(question_id, team_id)`:
its timestamp, correctness, score and optional identity arguments. -/
structure SubCall where
  now : Int
  is_correct : Bool
  score : Option Int
  team_name : Option String := none
  team_session_id : Option String := none

/-- Run a sequence of `record_submission` calls for one team on one
question (a failing call, impossible while the session exists, leaves the
state unchanged as in Python). -/
def runSubmissions (s : ServerState) (question_id : Nat) (team_id : String)
    (calls : List SubCall) : ServerState :=
  calls.foldl
    (fun s c =>
      match record_submission s c.now question_id team_id c.is_correct
          c.score c.team_name c.team_session_id with
      | some r => r.1
      | none => s)
    s

/-- The completion view after a sequence of calls. -/
def runView (v : Bool × Option Int × Option Int × Nat)
    (calls : List SubCall) : Bool × Option Int × Option Int × Nat :=
  calls.foldl (fun v c => stepView c.now c.is_correct c.score v) v

/-- A concrete one-question session used to instantiate theorems:
question 1, started at time 0, default limits, empty ledgers. -/
def sampleSession : QuestionSession :=
  { question_id := 1
    start_time := 0
    time_limit := 300
    buffer_time := 10
    is_active := true
    team_submissions := []
    fake_teams := [] }

/-- A concrete state tracking only `sampleSession`. -/
def sampleState : ServerState := ⟨[(1, sampleSession)], some 1⟩

/-- A completed synthetic-team record (score 95, first correct at 12). -/
def c4FakeRecord : TeamSubmission :=
  { team_id := "OpenAI"
    team_name := "OpenAI"
    question_id := 2
    submit_times := [12]
    wrong_count := 0
    correct_count := 1
    is_completed := true
    final_score := some 95
    first_correct_time := some 12 }

/-- A session whose only completed team is the synthetic one above; its
real ledger is empty. -/
def c4SyntheticSession : QuestionSession :=
  { question_id := 2
    start_time := 0
    time_limit := 300
    buffer_time := 10
    is_active := true
    team_submissions := []
    fake_teams := [("OpenAI", c4FakeRecord)] }

/-- State tracking only `c4SyntheticSession`. -/
def c4SyntheticState : ServerState := ⟨[(2, c4SyntheticSession)], some 2⟩

/-- A completed real-team record for the leaderboard example:
score `sc`, first correct at time `t` (session starts at 0). -/
def exampleRecord (name : String) (sc : Int) (t : Int) : TeamSubmission :=
  { team_id := name
    team_name := name
    question_id := 3
    submit_times := [t]
    wrong_count := 0
    correct_count := 1
    is_completed := true
    final_score := some sc
    first_correct_time := some t }

/-- The spec's leaderboard example: real teams with scores 90, 90, 70 and
times taken 5, 3, 2. -/
def c4ExampleSession : QuestionSession :=
  { question_id := 3
    start_time := 0
    time_limit := 300
    buffer_time := 10
    is_active := false
    team_submissions :=
      [("t90a", exampleRecord "t90a" 90 5),
       ("t90b", exampleRecord "t90b" 90 3),
       ("t70", exampleRecord "t70" 70 2)]
    fake_teams := [] }

/-- State tracking only `c4ExampleSession`. -/
def c4ExampleState : ServerState := ⟨[(3, c4ExampleSession)], none⟩

/-- An active session with question id 0 (started at 100). -/
def c7SessionZero : QuestionSession :=
  { question_id := 0
    start_time := 100
    time_limit := 1000
    buffer_time := 0
    is_active := true
    team_submissions := []
    fake_teams := [] }

/-- An active session with question id 5, started later (at 200). -/
def c7SessionFive : QuestionSession :=
  { question_id := 5
    start_time := 200
    time_limit := 1000
    buffer_time := 0
    is_active := true
    team_submissions := []
    fake_teams := [] }

/-- State tracking both sessions with question id 0 cached as active. -/
def c7State : ServerState :=
  ⟨[(0, c7SessionZero), (5, c7SessionFive)], some 0⟩

/-! ### Basic dictionary lemmas -/

theorem dictGet_dictSet_self {κ β : Type} [DecidableEq κ]
    (d : List (κ × β)) (k : κ) (v : β) :
    dictGet (dictSet d k v) k = some v := by
  induction d with
  | nil => simp [dictGet, dictSet]
  | cons hd tl ih =>
      obtain ⟨k', v'⟩ := hd
      by_cases h : k' = k
      · simp [dictGet, dictSet, h]
      · simp [dictGet, dictSet, h, ih]

theorem dictGet_dictSet_ne {κ β : Type} [DecidableEq κ]
    (d : List (κ × β)) (k k' : κ) (v : β) (h : k' ≠ k) :
    dictGet (dictSet d k v) k' = dictGet d k' := by
  induction d with
  | nil => simp [dictGet, dictSet, Ne.symm h]
  | cons hd tl ih =>
      obtain ⟨k'', v''⟩ := hd
      by_cases hk : k'' = k
      · subst hk
        simp [dictGet, dictSet, Ne.symm h]
      · by_cases hk' : k'' = k'
        · simp [dictGet, dictSet, hk, hk', h]
        · simp [dictGet, dictSet, hk, hk', ih]

theorem dictGet_map_value {κ β : Type} [DecidableEq κ]
    (d : List (κ × β)) (f : κ → β → β) (k : κ) :
    dictGet (d.map fun p => (p.1, f p.1 p.2)) k =
      (dictGet d k).map (f k) := by
  induction d with
  | nil => simp [dictGet]
  | cons hd tl ih =>
      obtain ⟨k', v'⟩ := hd
      by_cases h : k' = k
      · subst h; simp [dictGet]
      · simp [dictGet, h, ih]

/-! ### `record_submission` step lemmas -/

theorem applySubmission_view (now : Int) (c : Bool) (sc : Option Int)
    (b : TeamSubmission) :
    completionView (some (applySubmission now c sc b)) =
      stepView now c sc (completionView (some b)) := by
  cases c <;> by_cases hb : b.is_completed <;>
    simp [applySubmission, completionView, stepView, hb]

theorem applySubmission_fields (now : Int) (c : Bool) (sc : Option Int)
    (b : TeamSubmission) :
    (applySubmission now c sc b).submit_times = b.submit_times ++ [now] ∧
    (applySubmission now c sc b).team_name = b.team_name ∧
    (applySubmission now c sc b).team_session_id = b.team_session_id ∧
    (c = false →
      (applySubmission now c sc b).wrong_count = b.wrong_count + 1 ∧
      (applySubmission now c sc b).correct_count = b.correct_count) ∧
    (c = true →
      (applySubmission now c sc b).correct_count = b.correct_count + 1 ∧
      (applySubmission now c sc b).wrong_count = b.wrong_count) := by
  cases c <;> by_cases hb : b.is_completed <;>
    simp [applySubmission, hb]

theorem upsertRealRecord_view (session : QuestionSession) (qid : Nat)
    (team : String) (tn tsid : Option String) :
    completionView
        (some (upsertRealRecord session qid team tn tsid)) =
      completionView (dictGet session.team_submissions team) := by
  unfold upsertRealRecord
  cases h : dictGet session.team_submissions team with
  | none => rfl
  | some r =>
      simp only
      split <;> split <;> rfl

theorem addressedBase_view (s : ServerState) (qid : Nat) (team : String)
    (tn tsid : Option String) (session : QuestionSession)
    (hs : dictGet s.active_questions qid = some session) :
    completionView (some (addressedBase session qid team tn tsid)) =
      completionView (lookupRecord s qid team) := by
  unfold addressedBase lookupRecord
  simp only [hs]
  cases hf : dictGet session.fake_teams team with
  | none =>
      simp only [hf]
      exact upsertRealRecord_view session qid team tn tsid
  | some fake_sub => simp only [hf]

theorem record_submission_some (s : ServerState) (now : Int) (qid : Nat)
    (team : String) (c : Bool) (sc : Option Int) (tn tsid : Option String)
    (session : QuestionSession)
    (hs : dictGet s.active_questions qid = some session) :
    ∃ s', record_submission s now qid team c sc tn tsid =
        some (s',
          applySubmission now c sc (addressedBase session qid team tn tsid)) ∧
      (∃ session',
        dictGet s'.active_questions qid = some session') ∧
      lookupRecord s' qid team =
        some
          (applySubmission now c sc
            (addressedBase session qid team tn tsid)) := by
  unfold record_submission addressedBase
  simp only [hs]
  cases hf : dictGet session.fake_teams team with
  | some fake_sub =>
      simp only [hf]
      refine ⟨_, rfl, ⟨_, dictGet_dictSet_self _ _ _⟩, ?_⟩
      unfold lookupRecord
      simp only [dictGet_dictSet_self]
  | none =>
      simp only [hf]
      refine ⟨_, rfl, ⟨_, dictGet_dictSet_self _ _ _⟩, ?_⟩
      unfold lookupRecord
      simp only [dictGet_dictSet_self, hf]

theorem runSubmissions_view (qid : Nat) (team : String)
    (calls : List SubCall) :
    ∀ (s : ServerState) (session : QuestionSession),
      dictGet s.active_questions qid = some session →
      (∃ session',
        dictGet (runSubmissions s qid team calls).active_questions qid =
          some session') ∧
      completionView
          (lookupRecord (runSubmissions s qid team calls) qid team) =
        runView (completionView (lookupRecord s qid team)) calls := by
  induction calls with
  | nil => exact fun s session hs => ⟨⟨session, hs⟩, rfl⟩
  | cons cl rest ih =>
      intro s session hs
      obtain ⟨s', heq, ⟨session', hs'⟩, hlook⟩ :=
        record_submission_some s cl.now qid team cl.is_correct cl.score
          cl.team_name cl.team_session_id session hs
      have hview :
          completionView (lookupRecord s' qid team) =
            stepView cl.now cl.is_correct cl.score
              (completionView (lookupRecord s qid team)) := by
        rw [hlook, applySubmission_view,
          addressedBase_view s qid team _ _ session hs]
      have hrun :
          runSubmissions s qid team (cl :: rest) =
            runSubmissions s' qid team rest := by
        unfold runSubmissions
        simp only [List.foldl_cons, heq]
      rw [hrun]
      obtain ⟨hex, hv⟩ := ih s' session' hs'
      refine ⟨hex, ?_⟩
      rw [hv, hview]
      rfl

theorem runView_all_wrong (calls : List SubCall)
    (h : ∀ cl ∈ calls, cl.is_correct = false) :
    ∀ v, runView v calls = v := by
  induction calls with
  | nil => intro v; rfl
  | cons cl rest ih =>
      intro v
      obtain ⟨completed, fs, fct, cc⟩ := v
      have hcl : cl.is_correct = false := h cl (by simp)
      unfold runView
      simp only [List.foldl_cons]
      rw [show stepView cl.now cl.is_correct cl.score
            (completed, fs, fct, cc) = (completed, fs, fct, cc) by
          unfold stepView; rw [hcl]; simp]
      exact ih (fun c hc => h c (by simp [hc])) _

theorem runView_completed (calls : List SubCall) :
    ∀ (fs : Option Int) (fct : Option Int) (cc : Nat),
      runView (true, fs, fct, cc) calls =
        (true, fs, fct, cc + calls.countP fun cl => cl.is_correct) := by
  induction calls with
  | nil => intro fs fct cc; simp [runView]
  | cons cl rest ih =>
      intro fs fct cc
      unfold runView
      simp only [List.foldl_cons]
      cases hcl : cl.is_correct with
      | false =>
          have h1 : stepView cl.now false cl.score (true, fs, fct, cc) =
              (true, fs, fct, cc) := by simp [stepView]
          rw [h1]
          have h2 := ih fs fct cc
          unfold runView at h2
          rw [h2, List.countP_cons]
          simp [hcl]
      | true =>
          have h1 : stepView cl.now true cl.score (true, fs, fct, cc) =
              (true, fs, fct, cc + 1) := by simp [stepView]
          rw [h1]
          have h2 := ih fs fct (cc + 1)
          unfold runView at h2
          rw [h2, List.countP_cons]
          simp [hcl]
          omega

/-! ### C2: characterisation of `is_question_active` -/

theorem is_question_active_iff (s : ServerState) (now : Int) (qid : Nat) :
    is_question_active s now qid = true ↔
      ∃ session, dictGet s.active_questions qid = some session ∧
        session.is_active = true ∧
        now - session.start_time ≤
          session.time_limit + session.buffer_time := by
  unfold is_question_active
  cases h : dictGet s.active_questions qid with
  | none => simp
  | some session => simp

/-- C2: `is_question_active(question_id)` is true iff a session for that id
exists, its `is_active` flag is true, and the elapsed time since
`start_time` is at most `time_limit + buffer_time`; for a session started
with `time_limit=300` and `buffer_time=10`, the predicate is true at
elapsed 305 seconds and false at elapsed 311 seconds. -/
theorem c2_is_question_active_characterisation :
    (∀ (s : ServerState) (now : Int) (qid : Nat),
       is_question_active s now qid = true ↔
         ∃ session, dictGet s.active_questions qid = some session ∧
           session.is_active = true ∧
           now - session.start_time ≤
             session.time_limit + session.buffer_time) ∧
    (∀ (s0 : ServerState) (t0 : Int)
       (reg : List (String × RegistryInfo)),
       is_question_active (start_question s0 t0 reg 1 300 10).1
           (t0 + 305) 1 = true ∧
       is_question_active (start_question s0 t0 reg 1 300 10).1
           (t0 + 311) 1 = false) := by
  constructor
  · exact is_question_active_iff
  · intro s0 t0 reg
    constructor
    · rw [is_question_active_iff]
      have hget :
          dictGet (start_question s0 t0 reg 1 300 10).1.active_questions 1 =
            some { question_id := 1, start_time := t0, time_limit := 300,
                   buffer_time := 10, is_active := true,
                   team_submissions := registrySnapshot reg 1,
                   fake_teams := initialize_fake_teams 1 } := by
        rw [start_question]
        exact dictGet_dictSet_self _ _ _
      exact ⟨_, hget, rfl, by show (t0 + 305) - t0 ≤ (300 : Int) + 10; omega⟩
    · rw [Bool.eq_false_iff]
      intro htrue
      obtain ⟨session, hget, _, hle⟩ :=
        (is_question_active_iff _ _ _).mp htrue
      rw [start_question, dictGet_dictSet_self] at hget
      obtain rfl : _ = session := Option.some.inj hget
      have hle' : (t0 + 311) - t0 ≤ (300 : Int) + 10 := hle
      omega

/-! ### C6: missing-session behaviour -/

/-- C6: for a question id with no session, all read queries return an
empty/absent/zero result, whereas `record_submission` fails (returns no
updated state or record, hence creates no session). -/
theorem c6_missing_session_asymmetry (s : ServerState) (now : Int)
    (qid : Nat) (team : String) (c : Bool) (sc : Option Int)
    (tn tsid : Option String)
    (h : dictGet s.active_questions qid = none) :
    get_question_session s qid = none ∧
    get_team_submission s qid team = none ∧
    get_question_leaderboard s qid = [] ∧
    get_elapsed_time s now qid = 0 ∧
    get_remaining_time s now qid = 0 ∧
    record_submission s now qid team c sc tn tsid = none := by
  refine ⟨h, ?_, ?_, ?_, ?_, ?_⟩ <;>
    simp [get_team_submission, get_question_leaderboard, get_elapsed_time,
      get_remaining_time, record_submission, h]

/-- Witness for C6 at a concrete input: the empty state, question id 7. -/
theorem c6_missing_session_asymmetry_witness :
    dictGet (ServerState.mk [] none).active_questions 7 = none ∧
    (get_question_session (ServerState.mk [] none) 7 = none ∧
     get_team_submission (ServerState.mk [] none) 7 "alpha" = none ∧
     get_question_leaderboard (ServerState.mk [] none) 7 = [] ∧
     get_elapsed_time (ServerState.mk [] none) 3 7 = 0 ∧
     get_remaining_time (ServerState.mk [] none) 3 7 = 0 ∧
     record_submission (ServerState.mk [] none) 3 7 "alpha" true
       (some 80) none none = none) :=
  ⟨rfl,
   c6_missing_session_asymmetry (ServerState.mk [] none) 3 7 "alpha" true
     (some 80) none none rfl⟩

/-! ### C9: `reset_all_questions` -/

/-- C9: `reset_all_questions` returns the number of sessions tracked at the
moment of the call, and afterwards every `get_question_session` lookup
returns absent and `get_current_active_question_id` returns absent. -/
theorem c9_reset_all_questions (s : ServerState) (now : Int) :
    (reset_all_questions s).2 = s.active_questions.length ∧
    (∀ qid, get_question_session (reset_all_questions s).1 qid = none) ∧
    (get_current_active_question_id (reset_all_questions s).1 now).2 =
      none := by
  refine ⟨rfl, fun qid => rfl, rfl⟩

/-! ### C1: first-correct-wins -/

theorem runView_first_correct (pre post : List SubCall) (t : Int)
    (sc : Option Int) (tn0 tsid0 : Option String) (fs fct : Option Int)
    (cc : Nat) (hpre : ∀ cl ∈ pre, cl.is_correct = false) :
    runView (false, fs, fct, cc)
        (pre ++ { now := t, is_correct := true, score := sc,
                  team_name := tn0, team_session_id := tsid0 } :: post) =
      (true, sc, some t,
       cc + 1 + post.countP fun cl => cl.is_correct) := by
  have h1 :
      runView (false, fs, fct, cc)
          (pre ++ { now := t, is_correct := true, score := sc,
                    team_name := tn0, team_session_id := tsid0 } :: post) =
        runView (runView (false, fs, fct, cc) pre)
          ({ now := t, is_correct := true, score := sc, team_name := tn0,
             team_session_id := tsid0 } :: post) := by
    unfold runView
    rw [List.foldl_append]
  rw [h1, runView_all_wrong pre hpre]
  have h2 :
      runView (false, fs, fct, cc)
          ({ now := t, is_correct := true, score := sc, team_name := tn0,
             team_session_id := tsid0 } :: post) =
        runView (true, sc, some t, cc + 1) post := rfl
  rw [h2, runView_completed]

/-- C1: first-correct-wins completion is sticky and idempotent. For any
sequence of `record_submission` calls for one team on an existing session —
the team not yet completed, every call before the first correct one wrong,
the first correct call at time `t` with score `sc`, arbitrary calls after —
the team's record ends with `is_completed = true`, `final_score = sc` and
`first_correct_time = t` exactly as set by that first correct call, while
`correct_count` was incremented by every correct call. -/
theorem c1_first_correct_wins (s : ServerState) (qid : Nat) (team : String)
    (session : QuestionSession) (t : Int) (sc : Option Int)
    (tn0 tsid0 : Option String) (pre post : List SubCall)
    (hs : dictGet s.active_questions qid = some session)
    (hfresh : (completionView (lookupRecord s qid team)).1 = false)
    (hpre : ∀ cl ∈ pre, cl.is_correct = false) :
    ∃ ts,
      lookupRecord
          (runSubmissions s qid team
            (pre ++ { now := t, is_correct := true, score := sc,
                      team_name := tn0, team_session_id := tsid0 } :: post))
          qid team = some ts ∧
      ts.is_completed = true ∧
      ts.final_score = sc ∧
      ts.first_correct_time = some t ∧
      ts.correct_count =
        (completionView (lookupRecord s qid team)).2.2.2 + 1 +
          post.countP (fun cl => cl.is_correct) := by
  obtain ⟨-, hview⟩ :=
    runSubmissions_view qid team
      (pre ++ { now := t, is_correct := true, score := sc,
                team_name := tn0, team_session_id := tsid0 } :: post)
      s session hs
  set v := completionView (lookupRecord s qid team) with hvdef
  clear_value v
  obtain ⟨completed, fs, fct, cc⟩ := v
  have hc : completed = false := hfresh
  subst hc
  rw [runView_first_correct pre post t sc tn0 tsid0 fs fct cc hpre]
    at hview
  cases hlook :
      lookupRecord
        (runSubmissions s qid team
          (pre ++ { now := t, is_correct := true, score := sc,
                    team_name := tn0, team_session_id := tsid0 } :: post))
        qid team with
  | none =>
      rw [hlook] at hview
      exact absurd hview (by simp [completionView])
  | some ts =>
      rw [hlook] at hview
      simp only [completionView, Prod.mk.injEq] at hview
      obtain ⟨h1, h2, h3, h4⟩ := hview
      exact ⟨ts, rfl, h1, h2, h3, h4⟩

/-- Witness for C1 at concrete inputs: on `sampleState`, team `"alpha"`
submits wrong at time 5, correct with score 80 at time 10, then correct
again with score 50 at time 20; the record keeps score 80 and time 10,
with `correct_count = 2`. -/
theorem c1_first_correct_wins_witness :
    dictGet sampleState.active_questions 1 = some sampleSession ∧
    (completionView (lookupRecord sampleState 1 "alpha")).1 = false ∧
    (∀ cl ∈ [({ now := 5, is_correct := false, score := none,
                team_name := none, team_session_id := none } : SubCall)],
      cl.is_correct = false) ∧
    (∃ ts,
      lookupRecord
          (runSubmissions sampleState 1 "alpha"
            ([{ now := 5, is_correct := false, score := none,
                team_name := none, team_session_id := none }] ++
              { now := 10, is_correct := true, score := some 80,
                team_name := none, team_session_id := none } ::
                [{ now := 20, is_correct := true, score := some 50,
                   team_name := none, team_session_id := none }]))
          1 "alpha" = some ts ∧
      ts.is_completed = true ∧
      ts.final_score = some 80 ∧
      ts.first_correct_time = some 10 ∧
      ts.correct_count =
        (completionView (lookupRecord sampleState 1 "alpha")).2.2.2 + 1 +
          List.countP (fun cl : SubCall => cl.is_correct)
            [{ now := 20, is_correct := true, score := some 50,
               team_name := none, team_session_id := none }]) :=
  ⟨rfl, rfl, by decide,
   c1_first_correct_wins sampleState 1 "alpha" sampleSession 10 (some 80)
     none none
     [{ now := 5, is_correct := false, score := none, team_name := none,
        team_session_id := none }]
     [{ now := 20, is_correct := true, score := some 50, team_name := none,
        team_session_id := none }]
     rfl rfl (by decide)⟩

/-! ### C5: single-call effects of `record_submission` -/

theorem upsertRealRecord_absent (session : QuestionSession) (qid : Nat)
    (team : String) (tn tsid : Option String)
    (h : dictGet session.team_submissions team = none) :
    upsertRealRecord session qid team tn tsid =
      { team_id := team
        team_name := pyOr tn team
        team_session_id := tsid
        question_id := qid
        submit_times := []
        wrong_count := 0
        correct_count := 0 } := by
  unfold upsertRealRecord
  simp only [h]

theorem upsertRealRecord_present (session : QuestionSession) (qid : Nat)
    (team : String) (tn tsid : Option String) (r : TeamSubmission)
    (h : dictGet session.team_submissions team = some r) :
    (upsertRealRecord session qid team tn tsid).submit_times =
        r.submit_times ∧
    (upsertRealRecord session qid team tn tsid).wrong_count =
        r.wrong_count ∧
    (upsertRealRecord session qid team tn tsid).correct_count =
        r.correct_count ∧
    (upsertRealRecord session qid team tn tsid).is_completed =
        r.is_completed ∧
    (strTruthy tn = true → r.team_name = "" →
      (upsertRealRecord session qid team tn tsid).team_name = tn.getD "") ∧
    (r.team_name ≠ "" →
      (upsertRealRecord session qid team tn tsid).team_name =
        r.team_name) ∧
    (strTruthy tn = false →
      (upsertRealRecord session qid team tn tsid).team_name =
        r.team_name) ∧
    (strTruthy tsid = true → strTruthy r.team_session_id = false →
      (upsertRealRecord session qid team tn tsid).team_session_id =
        tsid) ∧
    (strTruthy r.team_session_id = true →
      (upsertRealRecord session qid team tn tsid).team_session_id =
        r.team_session_id) ∧
    (strTruthy tsid = false →
      (upsertRealRecord session qid team tn tsid).team_session_id =
        r.team_session_id) := by
  unfold upsertRealRecord
  simp only [h]
  by_cases hA : strTruthy tn = true <;>
    by_cases hB : r.team_name = "" <;>
      by_cases hC : strTruthy tsid = true <;>
        by_cases hD : strTruthy r.team_session_id = true <;>
          simp [hA, hB, hC, hD]

/-- C5: every `record_submission` call on an existing session appends
exactly one timestamp to the addressed record's `submit_times` and
increments exactly one of `wrong_count` (wrong) or `correct_count`
(correct); for a real team the upsert backfills a previously empty
`team_name`/`team_session_id` from truthy call arguments and never
overwrites a previously non-empty value; a fake team's stored record is
mutated in place. -/
theorem c5_record_submission_effects (s : ServerState) (now : Int)
    (qid : Nat) (team : String) (c : Bool) (sc : Option Int)
    (tn tsid : Option String) (session : QuestionSession)
    (hs : dictGet s.active_questions qid = some session) :
    let base := addressedBase session qid team tn tsid
    ∃ s' ts, record_submission s now qid team c sc tn tsid =
        some (s', ts) ∧
      lookupRecord s' qid team = some ts ∧
      ts.submit_times = base.submit_times ++ [now] ∧
      ts.team_name = base.team_name ∧
      ts.team_session_id = base.team_session_id ∧
      (c = false → ts.wrong_count = base.wrong_count + 1 ∧
          ts.correct_count = base.correct_count) ∧
      (c = true → ts.correct_count = base.correct_count + 1 ∧
          ts.wrong_count = base.wrong_count) ∧
      (∀ f, dictGet session.fake_teams team = some f → base = f) ∧
      (dictGet session.fake_teams team = none →
        (dictGet session.team_submissions team = none →
          base = { team_id := team
                   team_name := pyOr tn team
                   team_session_id := tsid
                   question_id := qid
                   submit_times := []
                   wrong_count := 0
                   correct_count := 0 }) ∧
        (∀ r, dictGet session.team_submissions team = some r →
          base.submit_times = r.submit_times ∧
          base.wrong_count = r.wrong_count ∧
          base.correct_count = r.correct_count ∧
          (strTruthy tn = true → r.team_name = "" →
            base.team_name = tn.getD "") ∧
          (r.team_name ≠ "" → base.team_name = r.team_name) ∧
          (strTruthy tn = false → base.team_name = r.team_name) ∧
          (strTruthy tsid = true → strTruthy r.team_session_id = false →
            base.team_session_id = tsid) ∧
          (strTruthy r.team_session_id = true →
            base.team_session_id = r.team_session_id) ∧
          (strTruthy tsid = false →
            base.team_session_id = r.team_session_id))) := by
  intro base
  obtain ⟨s', heq, -, hlook⟩ :=
    record_submission_some s now qid team c sc tn tsid session hs
  obtain ⟨ht, hn, hsid, hw, hc⟩ := applySubmission_fields now c sc base
  refine ⟨s', applySubmission now c sc base, heq, hlook, ht, hn, hsid, hw,
    hc, ?_, ?_⟩
  · intro f hf
    show addressedBase session qid team tn tsid = f
    unfold addressedBase
    simp only [hf]
  · intro hfake
    constructor
    · intro habs
      show addressedBase session qid team tn tsid = _
      unfold addressedBase
      simp only [hfake]
      exact upsertRealRecord_absent session qid team tn tsid habs
    · intro r hr
      have hbase : base = upsertRealRecord session qid team tn tsid := by
        show addressedBase session qid team tn tsid = _
        unfold addressedBase
        simp only [hfake]
      rw [hbase]
      obtain ⟨p1, p2, p3, -, p5, p6, p7, p8, p9, p10⟩ :=
        upsertRealRecord_present session qid team tn tsid r hr
      exact ⟨p1, p2, p3, p5, p6, p7, p8, p9, p10⟩

/-- Witness for C5 at concrete inputs: a wrong submission by the fresh real
team `"alpha"` on `sampleState`. -/
theorem c5_record_submission_effects_witness :
    dictGet sampleState.active_questions 1 = some sampleSession ∧
    (let base := addressedBase sampleSession 1 "alpha" (some "Team Alpha")
        (some "sess-1")
     ∃ s' ts, record_submission sampleState 7 1 "alpha" false none
        (some "Team Alpha") (some "sess-1") = some (s', ts) ∧
      lookupRecord s' 1 "alpha" = some ts ∧
      ts.submit_times = base.submit_times ++ [7] ∧
      ts.team_name = base.team_name ∧
      ts.team_session_id = base.team_session_id ∧
      (false = false → ts.wrong_count = base.wrong_count + 1 ∧
          ts.correct_count = base.correct_count) ∧
      (false = true → ts.correct_count = base.correct_count + 1 ∧
          ts.wrong_count = base.wrong_count) ∧
      (∀ f, dictGet sampleSession.fake_teams "alpha" = some f →
        base = f) ∧
      (dictGet sampleSession.fake_teams "alpha" = none →
        (dictGet sampleSession.team_submissions "alpha" = none →
          base = { team_id := "alpha"
                   team_name := pyOr (some "Team Alpha") "alpha"
                   team_session_id := some "sess-1"
                   question_id := 1
                   submit_times := []
                   wrong_count := 0
                   correct_count := 0 }) ∧
        (∀ r, dictGet sampleSession.team_submissions "alpha" = some r →
          base.submit_times = r.submit_times ∧
          base.wrong_count = r.wrong_count ∧
          base.correct_count = r.correct_count ∧
          (strTruthy (some "Team Alpha") = true → r.team_name = "" →
            base.team_name = (some "Team Alpha").getD "") ∧
          (r.team_name ≠ "" → base.team_name = r.team_name) ∧
          (strTruthy (some "Team Alpha") = false →
            base.team_name = r.team_name) ∧
          (strTruthy (some "sess-1") = true →
              strTruthy r.team_session_id = false →
            base.team_session_id = some "sess-1") ∧
          (strTruthy r.team_session_id = true →
            base.team_session_id = r.team_session_id) ∧
          (strTruthy (some "sess-1") = false →
            base.team_session_id = r.team_session_id)))) :=
  ⟨rfl,
   c5_record_submission_effects sampleState 7 1 "alpha" false none
     (some "Team Alpha") (some "sess-1") sampleSession rfl⟩

/-! ### C3: permanent inactivity -/

theorem refresh_preserves_questions (s : ServerState) (now : Int) :
    (refresh_active_question_id s now).1.active_questions =
      s.active_questions := by
  unfold refresh_active_question_id
  split
  · rfl
  · split <;> rfl

theorem record_submission_result_state (s : ServerState) (now : Int)
    (qid : Nat) (team : String) (c : Bool) (sc : Option Int)
    (tn tsid : Option String) :
    (dictGet s.active_questions qid = none ∧
      record_submission s now qid team c sc tn tsid = none) ∨
    (∃ session newSess ts,
      dictGet s.active_questions qid = some session ∧
      record_submission s now qid team c sc tn tsid =
        some ({ s with
                  active_questions :=
                    dictSet s.active_questions qid newSess }, ts) ∧
      newSess.start_time = session.start_time ∧
      newSess.time_limit = session.time_limit ∧
      newSess.buffer_time = session.buffer_time ∧
      newSess.is_active = session.is_active) := by
  cases hq : dictGet s.active_questions qid with
  | none =>
      left
      refine ⟨rfl, ?_⟩
      unfold record_submission
      simp only [hq]
  | some session =>
      right
      cases hf : dictGet session.fake_teams team with
      | some fake_sub =>
          refine ⟨session,
            { session with
                fake_teams :=
                  dictSet session.fake_teams team
                    (applySubmission now c sc fake_sub) },
            applySubmission now c sc fake_sub, rfl, ?_, rfl, rfl, rfl, rfl⟩
          unfold record_submission
          simp only [hq, hf]
      | none =>
          refine ⟨session,
            { session with
                team_submissions :=
                  dictSet session.team_submissions team
                    (applySubmission now c sc
                      (upsertRealRecord session qid team tn tsid)) },
            applySubmission now c sc
              (upsertRealRecord session qid team tn tsid),
            rfl, ?_, rfl, rfl, rfl, rfl⟩
          unfold record_submission
          simp only [hq, hf]

theorem stop_question_questions (s : ServerState) (now : Int) (qid : Nat) :
    ((stop_question s now qid).active_questions = s.active_questions ∧
      dictGet s.active_questions qid = none) ∨
    ∃ session, dictGet s.active_questions qid = some session ∧
      (stop_question s now qid).active_questions =
        dictSet s.active_questions qid
          { session with is_active := false } := by
  cases hq : dictGet s.active_questions qid with
  | none =>
      left
      refine ⟨?_, rfl⟩
      unfold stop_question
      simp only [hq]
  | some session =>
      refine Or.inr ⟨session, rfl, ?_⟩
      unfold stop_question
      simp only [hq]
      split
      · rw [refresh_preserves_questions]
      · rfl

theorem add_team_questions (s : ServerState)
    (tid tname tsid : String) (q : Nat) :
    dictGet (add_team_to_active_sessions s tid tname tsid).active_questions
        q =
      (dictGet s.active_questions q).map fun session =>
        if (dictGet session.team_submissions tid).isSome then session
        else
          { session with
              team_submissions :=
                dictSet session.team_submissions tid
                  { team_id := tid
                    team_name := tname
                    team_session_id := some tsid
                    question_id := q
                    submit_times := []
                    wrong_count := 0
                    correct_count := 0 } } := by
  unfold add_team_to_active_sessions
  exact dictGet_map_value s.active_questions
    (fun k session =>
      if (dictGet session.team_submissions tid).isSome then session
      else
        { session with
            team_submissions :=
              dictSet session.team_submissions tid
                { team_id := tid
                  team_name := tname
                  team_session_id := some tsid
                  question_id := k
                  submit_times := []
                  wrong_count := 0
                  correct_count := 0 } })
    q

/-- One operation never turns an inactive question active: the session's
timing fields are preserved and `is_active` can only go from true to
false. -/
theorem applyOp_preserves_inactive (s : ServerState) (op : Op) (now : Int)
    (qid : Nat) (h : is_question_active s now qid = false) :
    is_question_active (applyOp s op) now qid = false := by
  rw [Bool.eq_false_iff] at h ⊢
  intro htrue
  apply h
  rw [is_question_active_iff] at htrue ⊢
  obtain ⟨after, hget', hact', hle'⟩ := htrue
  cases op with
  | record nowr qidr teamr cr scr tnr tsidr =>
      rcases record_submission_result_state s nowr qidr teamr cr scr tnr
          tsidr with
        ⟨-, hnone⟩ | ⟨session, newSess, ts, hq, hsome, h1, h2, h3, h4⟩
      · rw [show applyOp s (.record nowr qidr teamr cr scr tnr tsidr) = s
              by simp only [applyOp, hnone]] at hget'
        exact ⟨after, hget', hact', hle'⟩
      · rw [show applyOp s (.record nowr qidr teamr cr scr tnr tsidr) =
              { s with
                  active_questions :=
                    dictSet s.active_questions qidr newSess }
              by simp only [applyOp, hsome]] at hget'
        by_cases hqq : qid = qidr
        · subst hqq
          rw [dictGet_dictSet_self] at hget'
          obtain rfl : newSess = after := Option.some.inj hget'
          refine ⟨session, hq, by rw [← h4]; exact hact', ?_⟩
          rw [← h1, ← h2, ← h3]
          exact hle'
        · rw [dictGet_dictSet_ne _ _ _ _ hqq] at hget'
          exact ⟨after, hget', hact', hle'⟩
  | stop nows qids =>
      rcases stop_question_questions s nows qids with
        ⟨heq, -⟩ | ⟨session, hq, heq⟩
      · rw [show (applyOp s (.stop nows qids)).active_questions =
              s.active_questions from heq] at hget'
        exact ⟨after, hget', hact', hle'⟩
      · rw [show (applyOp s (.stop nows qids)).active_questions =
              dictSet s.active_questions qids
                { session with is_active := false } from heq] at hget'
        by_cases hqq : qid = qids
        · subst hqq
          rw [dictGet_dictSet_self] at hget'
          obtain rfl : _ = after := Option.some.inj hget'
          exact absurd hact' (by simp)
        · rw [dictGet_dictSet_ne _ _ _ _ hqq] at hget'
          exact ⟨after, hget', hact', hle'⟩
  | queryActive nowq =>
      rw [show (applyOp s (.queryActive nowq)).active_questions =
            s.active_questions from refresh_preserves_questions s nowq]
        at hget'
      exact ⟨after, hget', hact', hle'⟩
  | register tid tname tsid =>
      rw [show (applyOp s (.register tid tname tsid)).active_questions =
            (add_team_to_active_sessions s tid tname tsid).active_questions
            from rfl,
          add_team_questions] at hget'
      cases hq : dictGet s.active_questions qid with
      | none => rw [hq] at hget'; exact absurd hget' (by simp)
      | some session =>
          rw [hq] at hget'
          simp only [Option.map_some'] at hget'
          obtain rfl : _ = after := Option.some.inj hget'
          refine ⟨session, rfl, ?_, ?_⟩
          · revert hact'
            split <;> exact fun h => h
          · revert hle'
            split <;> exact fun h => h

theorem is_question_active_mono_time (s : ServerState) (now now' : Int)
    (qid : Nat) (h : is_question_active s now qid = false)
    (hle : now ≤ now') : is_question_active s now' qid = false := by
  rw [Bool.eq_false_iff] at h ⊢
  intro htrue
  apply h
  rw [is_question_active_iff] at htrue ⊢
  obtain ⟨session, hget, hact, hbound⟩ := htrue
  exact ⟨session, hget, hact, by omega⟩

/-- C3: permanent inactivity. Once `is_question_active` is false for a
question — whether because `stop_question` ran or because the window
`time_limit + buffer_time` elapsed — no sequence of submissions, queries,
stops or registrations makes it true again at any later time. -/
theorem c3_permanent_inactivity (s : ServerState) (qid : Nat)
    (now now' : Int) (ops : List Op)
    (hfalse : is_question_active s now qid = false) (hle : now ≤ now') :
    is_question_active (applyOps s ops) now' qid = false := by
  have h' := is_question_active_mono_time s now now' qid hfalse hle
  clear hfalse hle
  induction ops generalizing s with
  | nil => exact h'
  | cons op rest ih =>
      exact ih (applyOp s op)
        (applyOp_preserves_inactive s op now' qid h')

/-- Witness for C3 at concrete inputs: question 1 of `sampleState` is
inactive at time 400 (window 310 elapsed); it stays inactive at time 500
after a stop, a submission, a registration and an active-question query. -/
theorem c3_permanent_inactivity_witness :
    is_question_active sampleState 400 1 = false ∧
    (400 : Int) ≤ 500 ∧
    is_question_active
        (applyOps sampleState
          [.stop 410 1,
           .record 420 1 "alpha" true (some 90) none none,
           .register "beta" "Team Beta" "sess-2",
           .queryActive 430])
        500 1 = false :=
  ⟨by decide, by decide,
   c3_permanent_inactivity sampleState 1 400 500
     [.stop 410 1,
      .record 420 1 "alpha" true (some 90) none none,
      .register "beta" "Team Beta" "sess-2",
      .queryActive 430]
     (by decide) (by decide)⟩

/-! ### C4: leaderboard -/

theorem mem_assignRanks (l : List LeaderboardEntry) :
    ∀ (i : Nat) (b' : LeaderboardEntry), b' ∈ assignRanks i l →
      ∃ b ∈ l, ∃ j, b' = { b with rank := j } := by
  induction l with
  | nil => intro i b' h; cases h
  | cons e rest ih =>
      intro i b' h
      unfold assignRanks at h
      rcases List.mem_cons.mp h with h | h
      · exact ⟨e, List.mem_cons_self _ _, i, h⟩
      · obtain ⟨b, hb, j, rfl⟩ := ih (i + 1) b' h
        exact ⟨b, List.mem_cons_of_mem _ hb, j, rfl⟩

theorem assignRanks_map_eraseRank (l : List LeaderboardEntry) :
    ∀ i, (assignRanks i l).map eraseRank = l.map eraseRank := by
  induction l with
  | nil => intro i; rfl
  | cons e rest ih =>
      intro i
      unfold assignRanks
      simp only [List.map_cons, ih (i + 1)]
      rfl

theorem assignRanks_map_rank (l : List LeaderboardEntry) :
    ∀ i, (assignRanks i l).map (fun e => e.rank) =
      List.range' i l.length := by
  induction l with
  | nil => intro i; rfl
  | cons e rest ih =>
      intro i
      unfold assignRanks
      simp only [List.map_cons, ih (i + 1), List.length_cons,
        List.range'_succ]

theorem assignRanks_sorted (l : List LeaderboardEntry) :
    l.Sorted entryLE → ∀ i, (assignRanks i l).Sorted entryLE := by
  induction l with
  | nil => intro _ i; exact List.sorted_nil
  | cons e rest ih =>
      intro h i
      rw [List.sorted_cons] at h
      obtain ⟨hhead, htail⟩ := h
      unfold assignRanks
      rw [List.sorted_cons]
      refine ⟨?_, ih htail (i + 1)⟩
      intro b' hb'
      obtain ⟨b, hb, j, rfl⟩ := mem_assignRanks rest (i + 1) b' hb'
      show entryLE { e with rank := i } { b with rank := j }
      unfold entryLE
      exact hhead b hb

theorem leaderboardEntries_rank0 (session : QuestionSession) :
    ∀ e ∈ leaderboardEntries session, eraseRank e = e := by
  intro e he
  unfold leaderboardEntries at he
  obtain ⟨p, hp, hfe⟩ := List.mem_filterMap.mp he
  by_cases hc : (p.2.is_completed && p.2.final_score.isSome) = true
  · rw [if_pos hc] at hfe
    obtain rfl : _ = e := Option.some.inj hfe
    rfl
  · rw [if_neg hc] at hfe
    cases hfe

theorem map_eraseRank_entries (session : QuestionSession) :
    (leaderboardEntries session).map eraseRank =
      leaderboardEntries session := by
  have h : ∀ (l : List LeaderboardEntry), (∀ e ∈ l, eraseRank e = e) →
      l.map eraseRank = l := by
    intro l
    induction l with
    | nil => intro _; rfl
    | cons e rest ih =>
        intro hmem
        rw [List.map_cons, hmem e (List.mem_cons_self _ _),
          ih fun a ha => hmem a (List.mem_cons_of_mem _ ha)]
  exact h _ (leaderboardEntries_rank0 session)

/-- Counterexample to C4 as stated: `c4SyntheticState` tracks a session
whose synthetic ledger (`fake_teams`) holds a completed team with a set
`final_score`, yet `get_question_leaderboard` returns the empty list —
completed synthetic teams never appear on the leaderboard. -/
theorem c4_leaderboard_counterexample :
    dictGet c4SyntheticState.active_questions 2 = some c4SyntheticSession ∧
    dictGet c4SyntheticSession.fake_teams "OpenAI" = some c4FakeRecord ∧
    c4FakeRecord.is_completed = true ∧
    c4FakeRecord.final_score = some 95 ∧
    get_question_leaderboard c4SyntheticState 2 = [] := by
  refine ⟨rfl, rfl, rfl, rfl, rfl⟩

/-- C4 (amended): for every existing session,
`get_question_leaderboard` returns exactly the session's real-ledger
(`team_submissions`) teams — not the synthetic ledger — whose
`is_completed` is true and `final_score` is set, each row carrying
`time_taken = first_correct_time - session.start_time`, sorted by score
descending with `time_taken` ascending as tie-break, ranks being the
1-based positions in that order; on the spec's example (scores 90, 90, 70
and times 5, 3, 2) the 90-scorer with time 3 ranks 1, the 90-scorer with
time 5 ranks 2 and the 70-scorer ranks 3. -/
theorem c4_leaderboard_real_ledger (s : ServerState) (qid : Nat)
    (session : QuestionSession)
    (hs : dictGet s.active_questions qid = some session) :
    ((get_question_leaderboard s qid).map eraseRank).Perm
        (leaderboardEntries session) ∧
    (get_question_leaderboard s qid).Sorted entryLE ∧
    (get_question_leaderboard s qid).map (fun e => e.rank) =
      List.range' 1 (leaderboardEntries session).length ∧
    (∀ e ∈ get_question_leaderboard s qid,
      ∃ p ∈ session.team_submissions,
        p.1 = e.team_id ∧ p.2.is_completed = true ∧
        p.2.final_score = some e.score ∧
        e.time_taken =
          p.2.first_correct_time.getD 0 - session.start_time ∧
        e.submit_count = p.2.submit_times.length ∧
        e.wrong_count = p.2.wrong_count) ∧
    get_question_leaderboard c4ExampleState 3 =
      [{ team_id := "t90b", score := 90, time_taken := 3,
         submit_count := 1, wrong_count := 0, rank := 1 },
       { team_id := "t90a", score := 90, time_taken := 5,
         submit_count := 1, wrong_count := 0, rank := 2 },
       { team_id := "t70", score := 70, time_taken := 2,
         submit_count := 1, wrong_count := 0, rank := 3 }] := by
  have hlb : get_question_leaderboard s qid =
      assignRanks 1
        (List.insertionSort entryLE (leaderboardEntries session)) := by
    unfold get_question_leaderboard
    simp only [hs]
  have hperm : ((get_question_leaderboard s qid).map eraseRank).Perm
      (leaderboardEntries session) := by
    rw [hlb, assignRanks_map_eraseRank]
    have h1 :=
      (List.perm_insertionSort entryLE (leaderboardEntries session)).map
        eraseRank
    rw [map_eraseRank_entries] at h1
    exact h1
  refine ⟨hperm, ?_, ?_, ?_, ?_⟩
  · rw [hlb]
    exact assignRanks_sorted _
      (List.sorted_insertionSort entryLE (leaderboardEntries session)) 1
  · rw [hlb, assignRanks_map_rank]
    congr 1
    exact
      (List.perm_insertionSort entryLE (leaderboardEntries session)).length_eq
  · intro e he
    have hmem : eraseRank e ∈ leaderboardEntries session :=
      hperm.mem_iff.mp (List.mem_map_of_mem eraseRank he)
    unfold leaderboardEntries at hmem
    obtain ⟨p, hp, hfe⟩ := List.mem_filterMap.mp hmem
    by_cases hc : (p.2.is_completed && p.2.final_score.isSome) = true
    · rw [if_pos hc] at hfe
      obtain ⟨hcomp, hsome⟩ := Bool.and_eq_true_iff.mp hc
      obtain ⟨v, hv⟩ := Option.isSome_iff_exists.mp hsome
      have hfe' := Option.some.inj hfe
      have h1 := congrArg LeaderboardEntry.team_id hfe'
      have h2 := congrArg LeaderboardEntry.score hfe'
      have h3 := congrArg LeaderboardEntry.time_taken hfe'
      have h4 := congrArg LeaderboardEntry.submit_count hfe'
      have h5 := congrArg LeaderboardEntry.wrong_count hfe'
      simp only [eraseRank] at h1 h2 h3 h4 h5
      refine ⟨p, hp, h1, hcomp, ?_, h3.symm, h4.symm, h5.symm⟩
      rw [hv]
      rw [hv] at h2
      simp only [Option.getD_some] at h2
      rw [← h2]
    · rw [if_neg hc] at hfe
      cases hfe
  · rfl

/-- Witness for C4 (amended) at a concrete input: the example state. -/
theorem c4_leaderboard_real_ledger_witness :
    dictGet c4ExampleState.active_questions 3 = some c4ExampleSession ∧
    (((get_question_leaderboard c4ExampleState 3).map eraseRank).Perm
        (leaderboardEntries c4ExampleSession) ∧
     (get_question_leaderboard c4ExampleState 3).Sorted entryLE ∧
     (get_question_leaderboard c4ExampleState 3).map (fun e => e.rank) =
       List.range' 1 (leaderboardEntries c4ExampleSession).length ∧
     (∀ e ∈ get_question_leaderboard c4ExampleState 3,
       ∃ p ∈ c4ExampleSession.team_submissions,
         p.1 = e.team_id ∧ p.2.is_completed = true ∧
         p.2.final_score = some e.score ∧
         e.time_taken =
           p.2.first_correct_time.getD 0 - c4ExampleSession.start_time ∧
         e.submit_count = p.2.submit_times.length ∧
         e.wrong_count = p.2.wrong_count) ∧
     get_question_leaderboard c4ExampleState 3 =
       [{ team_id := "t90b", score := 90, time_taken := 3,
          submit_count := 1, wrong_count := 0, rank := 1 },
        { team_id := "t90a", score := 90, time_taken := 5,
          submit_count := 1, wrong_count := 0, rank := 2 },
        { team_id := "t70", score := 70, time_taken := 2,
          submit_count := 1, wrong_count := 0, rank := 3 }]) :=
  ⟨rfl, c4_leaderboard_real_ledger c4ExampleState 3 c4ExampleSession rfl⟩

/-! ### C7: the active-question cache -/

/-- Counterexample to C7 as stated: in `c7State` the cached id 0 still
satisfies `is_question_active`, yet `get_current_active_question_id` does
not return it unchanged — Python's truthiness test (`if
current_active_question_id and ...`) treats a cached id of 0 as empty,
rescans, and returns the later-started session 5. -/
theorem c7_cached_zero_counterexample :
    c7State.current_active_question_id = some 0 ∧
    is_question_active c7State 250 0 = true ∧
    (get_current_active_question_id c7State 250).2 = some 5 ∧
    (get_current_active_question_id c7State 250).2 ≠ some 0 :=
  ⟨rfl, rfl, rfl, by decide⟩

theorem mem_of_dictGet {κ β : Type} [DecidableEq κ]
    (l : List (κ × β)) (k : κ) (v : β) (h : dictGet l k = some v) :
    (k, v) ∈ l := by
  induction l with
  | nil => cases h
  | cons hd tl ih =>
      obtain ⟨k', v'⟩ := hd
      unfold dictGet at h
      by_cases hk : k' = k
      · rw [if_pos hk] at h
        obtain rfl := Option.some.inj h
        rw [hk]
        exact List.mem_cons_self _ _
      · rw [if_neg hk] at h
        exact List.mem_cons_of_mem _ (ih h)

theorem dictGet_eq_some_of_mem {κ β : Type} [DecidableEq κ]
    (l : List (κ × β)) (hnd : (l.map Prod.fst).Nodup) (k : κ) (v : β)
    (h : (k, v) ∈ l) : dictGet l k = some v := by
  induction l with
  | nil => cases h
  | cons hd tl ih =>
      obtain ⟨k', v'⟩ := hd
      rw [List.map_cons, List.nodup_cons] at hnd
      rcases List.mem_cons.mp h with he | ht
      · obtain ⟨rfl, rfl⟩ := Prod.mk.injEq .. ▸ he
        unfold dictGet
        rw [if_pos rfl]
      · unfold dictGet
        by_cases hk : k' = k
        · subst hk
          exact absurd (List.mem_map_of_mem Prod.fst ht) hnd.1
        · rw [if_neg hk]
          exact ih hnd.2 ht

theorem mem_scanActiveCandidates (s : ServerState) (now : Int) (st : Int)
    (q : Nat) :
    (st, q) ∈ scanActiveCandidates s now ↔
      ∃ session, (q, session) ∈ s.active_questions ∧
        session.start_time = st ∧ is_question_active s now q = true := by
  unfold scanActiveCandidates
  rw [List.mem_filterMap]
  constructor
  · rintro ⟨p, hp, hf⟩
    by_cases hact : is_question_active s now p.1 = true
    · rw [if_pos hact] at hf
      have h1 := congrArg Prod.fst (Option.some.inj hf)
      have h2 := congrArg Prod.snd (Option.some.inj hf)
      simp only at h1 h2
      subst h2
      exact ⟨p.2, by simpa using hp, h1, hact⟩
    · rw [if_neg hact] at hf
      cases hf
  · rintro ⟨session, hmem, rfl, hact⟩
    exact ⟨(q, session), hmem, by rw [if_pos hact]⟩

theorem lexStep_spec (l : List (Int × Nat)) :
    ∀ x0 : Int × Nat,
      (l.foldl
          (fun m y =>
            if m.1 < y.1 ∨ (m.1 = y.1 ∧ m.2 < y.2) then y else m) x0 =
            x0 ∨
        l.foldl
          (fun m y =>
            if m.1 < y.1 ∨ (m.1 = y.1 ∧ m.2 < y.2) then y else m) x0 ∈
            l) ∧
      (let r := l.foldl
          (fun m y =>
            if m.1 < y.1 ∨ (m.1 = y.1 ∧ m.2 < y.2) then y else m) x0
       (x0.1 < r.1 ∨ (x0.1 = r.1 ∧ x0.2 ≤ r.2)) ∧
       ∀ x ∈ l, x.1 < r.1 ∨ (x.1 = r.1 ∧ x.2 ≤ r.2)) := by
  induction l with
  | nil =>
      intro x0
      exact ⟨Or.inl rfl, Or.inr ⟨rfl, le_refl _⟩, by intro x hx; cases hx⟩
  | cons y t ih =>
      intro x0
      rw [List.foldl_cons]
      by_cases hc : x0.1 < y.1 ∨ (x0.1 = y.1 ∧ x0.2 < y.2)
      · rw [if_pos hc]
        obtain ⟨hmem, hle, hall⟩ := ih y
        refine ⟨?_, ?_, ?_⟩
        · rcases hmem with h | h
          · rw [h]; exact Or.inr (List.mem_cons_self _ _)
          · exact Or.inr (List.mem_cons_of_mem _ h)
        · rcases hc with h | ⟨h1, h2⟩ <;> rcases hle with g | ⟨g1, g2⟩
          · exact Or.inl (by omega)
          · exact Or.inl (by omega)
          · exact Or.inl (by omega)
          · exact Or.inr ⟨by omega, by omega⟩
        · intro x hx
          rcases List.mem_cons.mp hx with rfl | hx'
          · exact hle
          · exact hall x hx'
      · rw [if_neg hc]
        obtain ⟨hmem, hle, hall⟩ := ih x0
        push_neg at hc
        obtain ⟨hc1, hc2⟩ := hc
        refine ⟨hmem.imp_right (List.mem_cons_of_mem _), hle, ?_⟩
        intro x hx
        rcases List.mem_cons.mp hx with rfl | hx'
        · rcases hle with g | ⟨g1, g2⟩
          · exact Or.inl (by omega)
          · rcases lt_or_eq_of_le hc1 with hlt | heq
            · exact Or.inl (by omega)
            · have h2 := hc2 heq.symm
              exact Or.inr ⟨by omega, by omega⟩
        · exact hall x hx'

theorem pyMax_spec (l : List (Int × Nat)) (m : Int × Nat)
    (h : pyMax l = some m) :
    m ∈ l ∧ ∀ x ∈ l, x.1 < m.1 ∨ (x.1 = m.1 ∧ x.2 ≤ m.2) := by
  cases l with
  | nil => cases h
  | cons x rest =>
      unfold pyMax at h
      obtain rfl := Option.some.inj h
      obtain ⟨hmem, hle, hall⟩ := lexStep_spec rest x
      constructor
      · rcases hmem with h' | h'
        · rw [h']; exact List.mem_cons_self _ _
        · exact List.mem_cons_of_mem _ h'
      · intro z hz
        rcases List.mem_cons.mp hz with rfl | hz'
        · exact hle
        · exact hall z hz'

theorem pyMax_eq_none (l : List (Int × Nat)) (h : pyMax l = none) :
    l = [] := by
  cases l with
  | nil => rfl
  | cons x rest => cases h

/-- C7 (amended): `get_current_active_question_id` returns the cached id
unchanged whenever the cached id is nonzero (Python truthiness: a cached
id of 0 counts as empty and forces a rescan) and still satisfies
`is_question_active`; the returned value is always what gets cached; any
returned id is active; an absent result means no session is active; and
whenever the cache test fails the returned id is an active session with
the lexicographically greatest `(start_time, question_id)` — the latest
start, most recent id on equal starts. -/
theorem c7_active_question_cache (s : ServerState) (now : Int)
    (hnd : (s.active_questions.map Prod.fst).Nodup) :
    ((get_current_active_question_id s now).1.current_active_question_id =
      (get_current_active_question_id s now).2) ∧
    (∀ q, s.current_active_question_id = some q → q ≠ 0 →
      is_question_active s now q = true →
      get_current_active_question_id s now = (s, some q)) ∧
    (∀ q, (get_current_active_question_id s now).2 = some q →
      is_question_active s now q = true) ∧
    ((get_current_active_question_id s now).2 = none →
      ∀ q, is_question_active s now q = false) ∧
    (optNatTruthy s.current_active_question_id = false ∨
        is_question_active s now (s.current_active_question_id.getD 0) =
          false →
      ∀ q, (get_current_active_question_id s now).2 = some q →
        ∃ sq, dictGet s.active_questions q = some sq ∧
          ∀ q' sq', dictGet s.active_questions q' = some sq' →
            is_question_active s now q' = true →
            (sq'.start_time < sq.start_time ∨
             (sq'.start_time = sq.start_time ∧ q' ≤ q))) := by
  by_cases hcond : (optNatTruthy s.current_active_question_id &&
      is_question_active s now
        (s.current_active_question_id.getD 0)) = true
  · have hres : get_current_active_question_id s now =
        (s, s.current_active_question_id) := by
      unfold get_current_active_question_id refresh_active_question_id
      rw [if_pos hcond]
    obtain ⟨ht, ha⟩ := Bool.and_eq_true_iff.mp hcond
    refine ⟨by rw [hres], ?_, ?_, ?_, ?_⟩
    · intro q hq hq0 hact
      rw [hres, hq]
    · intro q hq
      rw [hres] at hq
      have hq' : s.current_active_question_id = some q := hq
      rw [hq'] at ha
      exact ha
    · intro hnone
      rw [hres] at hnone
      have hnone' : s.current_active_question_id = none := hnone
      rw [hnone'] at ht
      cases ht
    · intro hdisj
      rcases hdisj with hf | hf
      · rw [ht] at hf; cases hf
      · rw [ha] at hf; cases hf
  · cases hmax : pyMax (scanActiveCandidates s now) with
    | some m =>
        have hres : get_current_active_question_id s now =
            ({ s with current_active_question_id := some m.2 },
             some m.2) := by
          unfold get_current_active_question_id
            refresh_active_question_id
          rw [if_neg hcond, hmax]
        obtain ⟨hmem, hall⟩ := pyMax_spec _ m hmax
        obtain ⟨sessionq, hqmem, hst, hact⟩ :=
          (mem_scanActiveCandidates s now m.1 m.2).mp (by simpa using hmem)
        refine ⟨by rw [hres], ?_, ?_, ?_, ?_⟩
        · intro q hq hq0 hactq
          exfalso
          apply hcond
          rw [hq]
          simp only [optNatTruthy, Option.getD_some, hactq,
            Bool.and_true]
          exact bne_iff_ne.mpr hq0
        · intro q hq
          rw [hres] at hq
          have hq' : some m.2 = some q := hq
          obtain rfl := Option.some.inj hq'
          exact hact
        · intro hnone
          rw [hres] at hnone
          cases hnone
        · intro _ q hq
          rw [hres] at hq
          have hq' : some m.2 = some q := hq
          obtain rfl := Option.some.inj hq'
          refine ⟨sessionq, dictGet_eq_some_of_mem _ hnd _ _ hqmem, ?_⟩
          intro q' sq' hq'' hact'
          have hmem' : (sq'.start_time, q') ∈ scanActiveCandidates s now :=
            (mem_scanActiveCandidates s now sq'.start_time q').mpr
              ⟨sq', mem_of_dictGet _ _ _ hq'', rfl, hact'⟩
          have hcmp := hall _ hmem'
          rw [hst]
          exact hcmp
    | none =>
        have hres : get_current_active_question_id s now =
            ({ s with current_active_question_id := none }, none) := by
          unfold get_current_active_question_id
            refresh_active_question_id
          rw [if_neg hcond, hmax]
        have hempty := pyMax_eq_none _ hmax
        refine ⟨by rw [hres], ?_, ?_, ?_, ?_⟩
        · intro q hq hq0 hactq
          exfalso
          apply hcond
          rw [hq]
          simp only [optNatTruthy, Option.getD_some, hactq,
            Bool.and_true]
          exact bne_iff_ne.mpr hq0
        · intro q hq
          rw [hres] at hq
          cases hq
        · intro _ q
          rw [Bool.eq_false_iff]
          intro hactq
          obtain ⟨sessionq, hget, -, -⟩ :=
            (is_question_active_iff s now q).mp hactq
          have hmemq : (sessionq.start_time, q) ∈
              scanActiveCandidates s now :=
            (mem_scanActiveCandidates s now sessionq.start_time q).mpr
              ⟨sessionq, mem_of_dictGet _ _ _ hget, rfl, hactq⟩
          rw [hempty] at hmemq
          cases hmemq
        · intro _ q hq
          rw [hres] at hq
          cases hq

/-- Witness for C7 (amended) at the concrete state `c7State`, time 250. -/
theorem c7_active_question_cache_witness :
    (c7State.active_questions.map Prod.fst).Nodup ∧
    (((get_current_active_question_id c7State 250).1.current_active_question_id
        = (get_current_active_question_id c7State 250).2) ∧
     (∀ q, c7State.current_active_question_id = some q → q ≠ 0 →
       is_question_active c7State 250 q = true →
       get_current_active_question_id c7State 250 = (c7State, some q)) ∧
     (∀ q, (get_current_active_question_id c7State 250).2 = some q →
       is_question_active c7State 250 q = true) ∧
     ((get_current_active_question_id c7State 250).2 = none →
       ∀ q, is_question_active c7State 250 q = false) ∧
     (optNatTruthy c7State.current_active_question_id = false ∨
         is_question_active c7State 250
           (c7State.current_active_question_id.getD 0) = false →
       ∀ q, (get_current_active_question_id c7State 250).2 = some q →
         ∃ sq, dictGet c7State.active_questions q = some sq ∧
           ∀ q' sq', dictGet c7State.active_questions q' = some sq' →
             is_question_active c7State 250 q' = true →
             (sq'.start_time < sq.start_time ∨
              (sq'.start_time = sq.start_time ∧ q' ≤ q)))) :=
  ⟨by decide, c7_active_question_cache c7State 250 (by decide)⟩

/-! ### C8: sentinel scheduling -/

/-- C8: for every session and every draw assignment, the sentinel team
`"0THING2LOSE"` with a `(0, 0)` draw (no attempts) is still scheduled, with
exactly one forced correct submission, while every other synthetic team
with a `(0, 0)` draw has no task scheduled at all. -/
theorem c8_sentinel_scheduling (session : QuestionSession)
    (draws : String → Nat × Nat) :
    scheduleFakeTeamDecision "0THING2LOSE" (0, 0) = some (0, 1) ∧
    (∀ name, name ≠ "0THING2LOSE" →
      scheduleFakeTeamDecision name (0, 0) = none) ∧
    (∀ ts, ("0THING2LOSE", ts) ∈ session.fake_teams →
      draws "0THING2LOSE" = (0, 0) →
      ("0THING2LOSE", 0, 1) ∈
        start_fake_team_submissions_plan session draws) ∧
    (∀ name, name ≠ "0THING2LOSE" → draws name = (0, 0) →
      ∀ wc, (name, wc) ∉ start_fake_team_submissions_plan session draws) := by
  have hdec : ∀ name, name ≠ "0THING2LOSE" →
      scheduleFakeTeamDecision name (0, 0) = none := by
    intro name h
    unfold scheduleFakeTeamDecision
    simp [beq_eq_false_iff_ne.mpr h]
  refine ⟨rfl, hdec, ?_, ?_⟩
  · intro ts hts hdraw
    unfold start_fake_team_submissions_plan
    rw [List.mem_filterMap]
    refine ⟨("0THING2LOSE", ts), hts, ?_⟩
    simp only [hdraw]
    rfl
  · intro name hname hdraw wc hmem
    unfold start_fake_team_submissions_plan at hmem
    obtain ⟨p, hp, hf⟩ := List.mem_filterMap.mp hmem
    obtain ⟨wc', hwc', heq⟩ := Option.map_eq_some'.mp hf
    have hp1 : p.1 = name := congrArg Prod.fst heq
    rw [hp1, hdraw, hdec name hname] at hwc'
    cases hwc'

/-! ### C10: status view counts the real ledger only -/

theorem mapFake_queries (s : ServerState) (now : Int)
    (f : Nat → List (String × TeamSubmission) →
      List (String × TeamSubmission)) (q : Nat) :
    is_question_active
        { s with
            active_questions := s.active_questions.map fun p =>
              (p.1, { p.2 with fake_teams := f p.1 p.2.fake_teams }) }
        now q = is_question_active s now q ∧
    get_elapsed_time
        { s with
            active_questions := s.active_questions.map fun p =>
              (p.1, { p.2 with fake_teams := f p.1 p.2.fake_teams }) }
        now q = get_elapsed_time s now q ∧
    get_remaining_time
        { s with
            active_questions := s.active_questions.map fun p =>
              (p.1, { p.2 with fake_teams := f p.1 p.2.fake_teams }) }
        now q = get_remaining_time s now q := by
  have hd :=
    dictGet_map_value s.active_questions
      (fun k session => { session with fake_teams := f k session.fake_teams })
      q
  cases h : dictGet s.active_questions q with
  | none =>
      rw [h] at hd
      unfold is_question_active get_elapsed_time get_remaining_time
      simp only [hd, h]
      refine ⟨?_, ?_, ?_⟩ <;> trivial
  | some session =>
      rw [h] at hd
      unfold is_question_active get_elapsed_time get_remaining_time
      simp only [hd, h, Option.map_some']
      refine ⟨?_, ?_, ?_⟩ <;> trivial

/-- C10: `get_all_sessions_status` computes `total_teams`,
`total_submissions` and `completed_teams` from the real-team ledger
(`team_submissions`) alone; replacing every session's synthetic ledger
(`fake_teams`) arbitrarily leaves the whole status view unchanged. -/
theorem c10_status_from_real_ledger (s : ServerState) (now : Int)
    (hnd : (s.active_questions.map Prod.fst).Nodup) :
    (∀ st ∈ get_all_sessions_status s now,
      ∃ session,
        dictGet s.active_questions st.question_id = some session ∧
        st.total_teams = session.team_submissions.length ∧
        st.total_submissions =
          (session.team_submissions.map fun q =>
            q.2.submit_times.length).sum ∧
        st.completed_teams =
          (session.team_submissions.filter fun q =>
            q.2.is_completed).length) ∧
    (∀ f : Nat → List (String × TeamSubmission) →
        List (String × TeamSubmission),
      get_all_sessions_status
        { s with
            active_questions := s.active_questions.map fun p =>
              (p.1, { p.2 with fake_teams := f p.1 p.2.fake_teams }) }
        now =
      get_all_sessions_status s now) := by
  constructor
  · intro st hst
    unfold get_all_sessions_status at hst
    obtain ⟨p, hp, rfl⟩ := List.mem_map.mp hst
    exact ⟨p.2,
      dictGet_eq_some_of_mem _ hnd _ _ (by simpa using hp),
      rfl, rfl, rfl⟩
  · intro f
    unfold get_all_sessions_status
    rw [List.map_map]
    apply List.map_congr_left
    intro p hp
    obtain ⟨hact, hel, hrem⟩ := mapFake_queries s now f p.1
    simp only [Function.comp_apply]
    rw [show (p.1, { p.2 with fake_teams := f p.1 p.2.fake_teams }).1 =
          p.1 from rfl]
    rw [hact, hel, hrem]

/-- Witness for C10 at the concrete state `c4SyntheticState` (one session
whose synthetic ledger holds a completed record with a submission), at
time 50. -/
theorem c10_status_from_real_ledger_witness :
    (c4SyntheticState.active_questions.map Prod.fst).Nodup ∧
    ((∀ st ∈ get_all_sessions_status c4SyntheticState 50,
       ∃ session,
         dictGet c4SyntheticState.active_questions st.question_id =
           some session ∧
         st.total_teams = session.team_submissions.length ∧
         st.total_submissions =
           (session.team_submissions.map fun q =>
             q.2.submit_times.length).sum ∧
         st.completed_teams =
           (session.team_submissions.filter fun q =>
             q.2.is_completed).length) ∧
     (∀ f : Nat → List (String × TeamSubmission) →
         List (String × TeamSubmission),
       get_all_sessions_status
         { c4SyntheticState with
             active_questions :=
               c4SyntheticState.active_questions.map fun p =>
                 (p.1, { p.2 with fake_teams := f p.1 p.2.fake_teams }) }
         50 =
       get_all_sessions_status c4SyntheticState 50)) :=
  ⟨by decide, c10_status_from_real_ledger c4SyntheticState 50 (by decide)⟩

end VBS
